import Mathlib

/-!
Verification development for the benchmark trace-generation pipeline
(`create_data.py`).  The external benchmark process is modelled by an
environment supplying, for each invocation, the outcome that
`run_benchmark_and_get_size` would report: nonzero exit, zero exit with no
artifact, or an artifact with a measured size (in MB, rounded to two
decimals, modelled as a rational) and a path.  Relocation (`shutil.move`)
success is likewise supplied by the environment.  All counters, filename
formatting, command construction and record construction are translated
directly from the source.
-/

/-- Fixed provenance tag written into every record (`MGPUSIM_COMMIT_SHA`). -/
def MGPUSIM_COMMIT_SHA : String := ("8ef2478f927933de2711ddea400927453079955c")

/-- The decimal digit character for `d % 10`-style values. -/
def digitChar (d : Nat) : Char :=
  match d with
  | 0 => '0'
  | 1 => '1'
  | 2 => '2'
  | 3 => '3'
  | 4 => '4'
  | 5 => '5'
  | 6 => '6'
  | 7 => '7'
  | 8 => '8'
  | _ => '9'

/-- Fuel-indexed minimal decimal rendering of a natural number
(the digit list Python's `"%d"` formatting produces). -/
def decCharsAux : Nat → Nat → List Char
  | 0, _ => []
  | f + 1, n =>
    if n < 10 then [digitChar n]
    else decCharsAux f (n / 10) ++ [digitChar (n % 10)]

/-- Minimal decimal rendering of a natural number as a string. -/
def decStr (n : Nat) : String := String.mk (decCharsAux (n + 1) n)

/-- Python's `str` on an `int`. -/
def intDecStr (i : Int) : String :=
  if i < 0 then ("-") ++ decStr i.natAbs else decStr i.toNat

/-- Python's `f"{i:04d}"`: decimal rendering zero-padded to width 4. -/
def pad4 (i : Nat) : String :=
  String.mk (List.replicate (4 - (decStr i).length) '0') ++ decStr i

/-- The filename stem `D<bench_id><type_id><index:04d>`; the source writes
record ids as `format_data_filename(...).replace(".sqlite3", "")`, which is
exactly this stem. -/
def format_stem (bench_id type_id : String) (index : Nat) : String :=
  ("D") ++ bench_id ++ type_id ++ pad4 index

/-- `format_data_filename` from the source:
`f"{DATA_TASK_PREFIX}{bench_id}{type_id}{index:04d}.sqlite3"`. -/
def format_data_filename (bench_id type_id : String) (index : Nat) : String :=
  format_stem bench_id type_id index ++ (".sqlite3")

/-- Value of a decimal digit string (most significant digit first). -/
def digitsVal (cs : List Char) : Nat :=
  cs.foldl (fun a c => a * 10 + (c.toNat - 48)) 0

/-- The characters of the `.sqlite3` extension. -/
def extChars : List Char := ['.', 's', 'q', 'l', 'i', 't', 'e', '3']

/-- Modelled from the spec: the repository defines only the formatter
`format_data_filename`; the spec postulates an inverse parser for the
pattern `D<bench_id><type_id><index:04d>.sqlite3` that recovers the triple
(bench_id, type_id, index).  The bench id is two characters and the type id
one character, so the fields are fixed-position; the index is the maximal
digit run before the extension. -/
def parse_data_filename (s : String) : Option (String × String × Nat) :=
  match s.data with
  | d :: c1 :: c2 :: t :: rest =>
    if d = 'D' ∧ 4 ≤ (rest.takeWhile Char.isDigit).length ∧ rest.dropWhile Char.isDigit = extChars then
      some (String.mk [c1, c2], String.mk [t], digitsVal (rest.takeWhile Char.isDigit))
    else none
  | _ => none

/-- `Path(p).name`: the final path component, i.e. the characters after
the last `/`. -/
def pathName (s : String) : String :=
  String.mk ((s.data.reverse.takeWhile (fun c => c ≠ '/')).reverse)

/-- Python's `" ".join`. -/
def joinSpace : List String → String
  | [] => ("")
  | [x] => x
  | x :: y :: xs => x ++ (" ") ++ joinSpace (y :: xs)

/-- Python's `s.lstrip("-")`. -/
def lstripDash (s : String) : String :=
  String.mk (s.data.dropWhile (fun c => c = '-'))

/-- Python's `dict.get(key, [])` on the normal-argument value table. -/
def lookupVals (key : String) : List (String × List String) → List String
  | [] => []
  | kv :: rest => if kv.1 = key then kv.2 else lookupVals key rest

/-- Python's `repr` of a nonnegative float that is an exact multiple of
0.01 (the shape `round(bytes / 2**20, 2)` produces): integer part, a dot,
then the fractional hundredths with a trailing zero dropped (`6.0`, `2.5`,
`0.05`). -/
def floatRepr (q : ℚ) : String :=
  let t : Int := q.num * 100 / (q.den : Int)
  let fr : Nat := (t % 100).toNat
  decStr (t / 100).toNat ++ (".") ++
    (if fr % 10 = 0 then decStr (fr / 10)
     else if fr < 10 then ("0") ++ decStr fr
     else decStr fr)

/-- The outcome `run_benchmark_and_get_size` reports for one invocation:
nonzero exit (`(False, 0, None)`), zero exit with no `akita_sim_*.sqlite3`
file (`(True, 0, None)`), or an artifact with measured size and path. -/
inductive RunResult where
  | failed : RunResult
  | noArtifact : RunResult
  | artifact : ℚ → String → RunResult
deriving DecidableEq

/-- External world of one `process_benchmark` call: configuration lookup,
directory and build outcomes, the result of the k-th benchmark invocation,
and whether the `shutil.move` relocation attempted after the k-th
invocation succeeds. -/
structure Env where
  nameKnown : Bool
  dirOk : Bool
  buildOk : Bool
  runs : Nat → RunResult
  moveOk : Nat → Bool

/-- One metadata document written by `write_data_record`. -/
structure DataRecord where
  id : String
  benchmark : String
  benchmark_cmd : String
  trace_file : String
  mgpusim_commit_SHA : String
  size : String
  comment : String
deriving DecidableEq

/-- Default record for total indexing. -/
def recD : DataRecord :=
  { id := ("") , benchmark := ("") , benchmark_cmd := ("") , trace_file := ("")
    , mgpusim_commit_SHA := ("") , size := ("") , comment := ("") }

/-- The record's `size` field:
`f"{size_mb} MB" if size_mb is not None else "0 MB"`; the runner returns the
integer `0` (printed `0`) when no artifact exists and a float otherwise. -/
def sizeField : RunResult → String
  | RunResult.artifact s _ => floatRepr s ++ (" MB")
  | _ => ("0 MB")

/-- Global profile settings used by `process_benchmark`:
`benchmark_base_arg` is taken already tokenised by `shlex.split` (the source
splits the same string wherever it is used), and the minimum artifact size
is the integer `benchmark_trace_min_size_MB`. -/
structure ProfileConf where
  data_save_path : String
  base_args : List String
  size_min_MB : Int

/-- Per-benchmark configuration (`bconf`); normal-argument values carry the
strings `str(value)` produces, and each special entry is taken already
tokenised by `shlex.split`. -/
structure BenchConf where
  bench_id : String
  base_script : String
  size_arg_name : String
  size_arg_start : Int
  normal_arg_list : List String
  normal_arg_values : List (String × List String)
  special_arg_list : List (List String)

/-- Name under which the base artifact ends up being referred to:
the nominal destination name if the move succeeds, otherwise
(`dest_path = produced_path` in the handler) the artifact's own name. -/
def baseDestName (env : Env) (C : BenchConf) (p : String) (attempt : Nat) : String :=
  if env.moveOk attempt = true then format_data_filename C.bench_id ("0") 0
  else pathName p

/-- The base-trace record written when the base-size search succeeds
(comment `"base trace"`, command string with the size flag and accepted
base size as one joined token, `trace_file` from `dest_path.name`). -/
def baseRecord (env : Env) (P : ProfileConf) (C : BenchConf) (bench exe : String)
    (bsz : Int) (s : ℚ) (p : String) (attempt : Nat) : DataRecord :=
  { id := format_stem C.bench_id ("0") 0
    , benchmark := bench
    , benchmark_cmd := joinSpace ([pathName exe] ++ P.base_args ++ [C.size_arg_name ++ (" ") ++ intDecStr bsz])
    , trace_file := baseDestName env C p attempt
    , mgpusim_commit_SHA := MGPUSIM_COMMIT_SHA
    , size := floatRepr s ++ (" MB")
    , comment := ("base trace") }

/-- What the base-size search hands to the rest of `process_benchmark`:
the accepted size, the record it wrote, the trace name it appended to the
summary list, and the next invocation counter. -/
structure BaseResult where
  base_size : Int
  record : DataRecord
  trace_name : String
  attemptEnd : Nat
deriving DecidableEq

/-- Terminal states of the base-size search. -/
inductive BaseOutcome where
  | aborted : BaseOutcome
  | found : BaseResult → BaseOutcome
deriving DecidableEq

/-- The `while True` base-size search loop, fuel-indexed (`none` means the
fuel ran out with the loop still running).  Per iteration: run at the
current size; nonzero exit aborts; no artifact or an artifact smaller than
the threshold doubles the size and retries; otherwise the search concludes
at the current size (the index counter stays 0 throughout). -/
def baseSearchAux (env : Env) (P : ProfileConf) (C : BenchConf) (bench exe : String) :
    Int → Nat → Nat → Option BaseOutcome
  | _, _, 0 => none
  | cur, attempt, fuel + 1 =>
    match env.runs attempt with
    | RunResult.failed => some BaseOutcome.aborted
    | RunResult.noArtifact => baseSearchAux env P C bench exe (cur * 2) (attempt + 1) fuel
    | RunResult.artifact s p =>
      if s < (P.size_min_MB : ℚ) then
        baseSearchAux env P C bench exe (cur * 2) (attempt + 1) fuel
      else
        some (BaseOutcome.found
          { base_size := cur
            , record := baseRecord env P C bench exe cur s p attempt
            , trace_name := baseDestName env C p attempt
            , attemptEnd := attempt + 1 })

/-- Whether the k-th invocation yields an artifact meeting the threshold. -/
def meetsB (env : Env) (m : Int) (k : Nat) : Bool :=
  match env.runs k with
  | RunResult.artifact s _ => decide ((m : ℚ) ≤ s)
  | _ => false

/-- Product of the lengths of a list of lists. -/
def prodLens {α : Type} (ls : List (List α)) : Nat := (ls.map List.length).prod

/-- `itertools.product(*lists)`: first list outermost, last list varying
fastest. -/
def pyProduct {α : Type} : List (List α) → List (List α)
  | [] => [[]]
  | l :: ls => l.flatMap (fun x => (pyProduct ls).map (fun r => x :: r))

/-- The per-flag value lists, in declared flag order
(`normal_arg_values.get(arg.lstrip("-"), [])`). -/
def normalValuesLists (C : BenchConf) : List (List String) :=
  C.normal_arg_list.map (fun arg => lookupVals (lstripDash arg) C.normal_arg_values)

/-- `list(product(*normal_values_lists)) if normal_values_lists else []`. -/
def normal_combinations (C : BenchConf) : List (List String) :=
  if normalValuesLists C = [] then [] else pyProduct (normalValuesLists C)

/-- Spec-side definition of lexicographic product order over the declared
sequences: the j-th combination picks from each list by mixed-radix
decomposition of j, the last list varying fastest. -/
def lexIndex {α : Type} (ls : List (List α)) (d : α) (j : Nat) : List α :=
  match ls with
  | [] => []
  | l :: rest => l.getD (j / prodLens rest) d :: lexIndex rest d (j % prodLens rest)

/-- The command executed for one normal-pass combination. -/
def normalCmd (P : ProfileConf) (C : BenchConf) (exe : String) (bsz : Int)
    (combo : List String) : List String :=
  [exe] ++ P.base_args ++ [C.size_arg_name, intDecStr bsz] ++
    ((C.normal_arg_list.zip combo).map (fun q => [q.1, q.2])).flatten

/-- The record written for one normal-pass combination; its command string
is `" ".join([basename] + base_args + [f"{arg} {val}" ...])`. -/
def normalRecord (env : Env) (P : ProfileConf) (C : BenchConf) (exe : String)
    (bsz : Int) (bench : String) (idx attempt : Nat) (combo : List String) : DataRecord :=
  { id := format_stem C.bench_id ("0") idx
    , benchmark := bench
    , benchmark_cmd := joinSpace ([pathName exe] ++ P.base_args ++
        (C.normal_arg_list.zip combo).map (fun q => q.1 ++ (" ") ++ q.2))
    , trace_file := format_data_filename C.bench_id ("0") idx
    , mgpusim_commit_SHA := MGPUSIM_COMMIT_SHA
    , size := sizeField (env.runs attempt)
    , comment := ("") }

/-- The command executed for one special-pass entry. -/
def specialCmd (P : ProfileConf) (C : BenchConf) (exe : String) (bsz : Int)
    (toks : List String) : List String :=
  [exe] ++ P.base_args ++ [C.size_arg_name, intDecStr bsz] ++ toks

/-- The record written for one special-pass entry; its command string does
include the size flag and the accepted base size. -/
def specialRecord (env : Env) (P : ProfileConf) (C : BenchConf) (exe : String)
    (bsz : Int) (bench : String) (idx attempt : Nat) (toks : List String) : DataRecord :=
  { id := format_stem C.bench_id ("1") idx
    , benchmark := bench
    , benchmark_cmd := joinSpace ([pathName exe] ++ P.base_args ++
        [C.size_arg_name, intDecStr bsz] ++ toks)
    , trace_file := format_data_filename C.bench_id ("1") idx
    , mgpusim_commit_SHA := MGPUSIM_COMMIT_SHA
    , size := sizeField (env.runs attempt)
    , comment := ("") }

/-- Output of one sweep pass: records and summary entries in written order,
plus the final index and invocation counters. -/
structure PassOut where
  records : List DataRecord
  traces : List String
  recfiles : List String
  idxEnd : Nat
  attemptEnd : Nat
deriving DecidableEq

/-- The normal sweep loop: one record, one nominal summary trace entry and
one record filename per combination, counters advancing once per run;
failures do not stop the loop. -/
def normalPass (env : Env) (P : ProfileConf) (C : BenchConf) (exe : String)
    (bsz : Int) (bench : String) : Nat → Nat → List (List String) → PassOut
  | idx, attempt, [] => { records := [], traces := [], recfiles := [], idxEnd := idx, attemptEnd := attempt }
  | idx, attempt, combo :: rest =>
    let r := normalRecord env P C exe bsz bench idx attempt combo
    let out := normalPass env P C exe bsz bench (idx + 1) (attempt + 1) rest
    { records := r :: out.records
      , traces := format_data_filename C.bench_id ("0") idx :: out.traces
      , recfiles := (r.id ++ (".json")) :: out.recfiles
      , idxEnd := out.idxEnd
      , attemptEnd := out.attemptEnd }

/-- The special sweep loop, continuing the same counters with type id
`"1"`. -/
def specialPass (env : Env) (P : ProfileConf) (C : BenchConf) (exe : String)
    (bsz : Int) (bench : String) : Nat → Nat → List (List String) → PassOut
  | idx, attempt, [] => { records := [], traces := [], recfiles := [], idxEnd := idx, attemptEnd := attempt }
  | idx, attempt, toks :: rest =>
    let r := specialRecord env P C exe bsz bench idx attempt toks
    let out := specialPass env P C exe bsz bench (idx + 1) (attempt + 1) rest
    { records := r :: out.records
      , traces := format_data_filename C.bench_id ("1") idx :: out.traces
      , recfiles := (r.id ++ (".json")) :: out.recfiles
      , idxEnd := out.idxEnd
      , attemptEnd := out.attemptEnd }

/-- Observable outcome of `process_benchmark`: return status, the records
written to the record store in order, and the summary's ordered trace and
record-filename lists. -/
structure ProcOut where
  status : Nat
  records : List DataRecord
  traces : List String
  recfiles : List String
deriving DecidableEq

/-- `process_benchmark`: fatal checks (unknown name, missing directory,
build failure), then the base-size search (fatal on abort, nothing written),
then the two sweep passes with the index counter reset to 1 and the
invocation counter continuing. -/
def process_benchmark (env : Env) (P : ProfileConf) (C : BenchConf)
    (bench exe : String) (fuel : Nat) : Option ProcOut :=
  if env.nameKnown = true then
    if env.dirOk = true then
      if env.buildOk = true then
        match baseSearchAux env P C bench exe C.size_arg_start 0 fuel with
        | none => none
        | some BaseOutcome.aborted => some { status := 1, records := [], traces := [], recfiles := [] }
        | some (BaseOutcome.found r) =>
          let n := normalPass env P C exe r.base_size bench 1 r.attemptEnd (normal_combinations C)
          let s := specialPass env P C exe r.base_size bench n.idxEnd n.attemptEnd C.special_arg_list
          some { status := 0
                 , records := r.record :: n.records ++ s.records
                 , traces := r.trace_name :: n.traces ++ s.traces
                 , recfiles := (r.record.id ++ (".json")) :: n.recfiles ++ s.recfiles }
      else some { status := 1, records := [], traces := [], recfiles := [] }
    else some { status := 1, records := [], traces := [], recfiles := [] }
  else some { status := 1, records := [], traces := [], recfiles := [] }

/-- Status of a decided `process_benchmark` outcome (2 marks "undecided"). -/
def procStatus : Option ProcOut → Nat
  | some o => o.status
  | none => 2

/-- Records of a decided `process_benchmark` outcome. -/
def procRecords : Option ProcOut → List DataRecord
  | some o => o.records
  | none => []

/-- Summary trace list of a decided `process_benchmark` outcome. -/
def procTraces : Option ProcOut → List String
  | some o => o.traces
  | none => []

/-- The `trace_file` field of the record a successful base search wrote. -/
def foundTrace : Option BaseOutcome → String
  | some (BaseOutcome.found r) => r.record.trace_file
  | _ => ("")

/-- Concrete profile for examples: base args `-timing`, threshold 5 MB. -/
def Pex : ProfileConf :=
  { data_save_path := ("./data"), base_args := [("-timing")], size_min_MB := 5 }

/-- Concrete benchmark configuration for examples: id `03`, size flag
`-points` starting at 1, flags `-a` (values 1, 2) and `-b` (values 10, 20),
one special entry `-magic 7`. -/
def Cex : BenchConf :=
  { bench_id := ("03")
    , base_script := ("./kmeans")
    , size_arg_name := ("-points")
    , size_arg_start := 1
    , normal_arg_list := [("-a"), ("-b")]
    , normal_arg_values := [(("a"), [("1"), ("2")]), (("b"), [("10"), ("20")])]
    , special_arg_list := [[("-magic"), ("7")]] }

/-- `Cex` with starting size 0. -/
def Cex0 : BenchConf :=
  { Cex with size_arg_start := 0 }

/-- Example executable path and benchmark name. -/
def exeX : String := ("/bench/kmeans/kmeans")

/-- Example benchmark name. -/
def benchX : String := ("kmeans")

/-- Environment for the base-search example: sizes 1, 2, 4 give no artifact,
2 MB, 2 MB; size 8 gives 6 MB. -/
def envA : Env :=
  { nameKnown := true, dirOk := true, buildOk := true
    , runs := fun i =>
        ([RunResult.noArtifact
          , RunResult.artifact 2 ("akita_sim_001.sqlite3")
          , RunResult.artifact 2 ("akita_sim_001.sqlite3")]).getD i
          (RunResult.artifact 6 ("akita_sim_001.sqlite3"))
    , moveOk := fun _ => true }

/-- Environment whose very first run meets the threshold but whose
relocation fails. -/
def envB : Env :=
  { nameKnown := true, dirOk := true, buildOk := true
    , runs := fun _ => RunResult.artifact 6 ("akita_sim_001.sqlite3")
    , moveOk := fun _ => false }

/-- Environment whose second base-search attempt exits nonzero. -/
def envC : Env :=
  { nameKnown := true, dirOk := true, buildOk := true
    , runs := fun i => ([RunResult.noArtifact]).getD i RunResult.failed
    , moveOk := fun _ => true }

/-- Environment in which every run succeeds but never produces an
artifact. -/
def envD : Env :=
  { nameKnown := true, dirOk := true, buildOk := true
    , runs := fun _ => RunResult.noArtifact
    , moveOk := fun _ => true }

/-- Environment for the sweep examples: the base search succeeds at once
(6 MB), the first normal sweep run (invocation 1) exits nonzero, all later
runs produce 3 MB artifacts. -/
def envE : Env :=
  { nameKnown := true, dirOk := true, buildOk := true
    , runs := fun i =>
        ([RunResult.artifact 6 ("akita_sim_001.sqlite3"), RunResult.failed]).getD i
          (RunResult.artifact 3 ("akita_sim_001.sqlite3"))
    , moveOk := fun _ => true }

/-- The base-search result `envE` yields on `Cex`. -/
def rE : BaseResult :=
  { base_size := 1
    , record := baseRecord envE Pex Cex benchX exeX 1 6 ("akita_sim_001.sqlite3") 0
    , trace_name := format_data_filename ("03") ("0") 0
    , attemptEnd := 1 }

theorem str_ext {s t : String} (h : s.data = t.data) : s = t := by
  cases s
  cases t
  exact congrArg String.mk h

theorem digitChar_isDigit (d : Nat) : (digitChar d).isDigit = true := by
  match d with
  | 0 => decide
  | 1 => decide
  | 2 => decide
  | 3 => decide
  | 4 => decide
  | 5 => decide
  | 6 => decide
  | 7 => decide
  | 8 => decide
  | n + 9 => exact rfl

theorem digitChar_val (d : Nat) (h : d < 10) : (digitChar d).toNat - 48 = d := by
  interval_cases d <;> decide

theorem decCharsAux_digits (fuel n : Nat) :
    ∀ c ∈ decCharsAux fuel n, c.isDigit = true := by
  induction fuel generalizing n with
  | zero => intro c hc; simp [decCharsAux] at hc
  | succ f ih =>
    intro c hc
    by_cases h : n < 10
    · simp [decCharsAux, h] at hc
      subst hc
      exact digitChar_isDigit n
    · simp [decCharsAux, h] at hc
      rcases hc with hc | hc
      · exact ih (n / 10) c hc
      · subst hc
        exact digitChar_isDigit (n % 10)

theorem decCharsAux_ne_nil (fuel n : Nat) (h : 0 < fuel) : decCharsAux fuel n ≠ [] := by
  cases fuel with
  | zero => omega
  | succ f =>
    by_cases hn : n < 10
    · simp [decCharsAux, hn]
    · simp [decCharsAux, hn]

theorem digitsVal_append_one (xs : List Char) (c : Char) :
    digitsVal (xs ++ [c]) = digitsVal xs * 10 + (c.toNat - 48) := by
  simp [digitsVal, List.foldl_append]

theorem digitsVal_decCharsAux (fuel n : Nat) (h : n < fuel) :
    digitsVal (decCharsAux fuel n) = n := by
  induction fuel generalizing n with
  | zero => omega
  | succ f ih =>
    by_cases hn : n < 10
    · simp [decCharsAux, hn, digitsVal]
      exact digitChar_val n hn
    · have h10 : 10 ≤ n := by omega
      have hdiv : n / 10 < f := by
        have h1 : n / 10 < n := Nat.div_lt_self (by omega) (by omega)
        omega
      rw [show decCharsAux (f + 1) n = decCharsAux f (n / 10) ++ [digitChar (n % 10)] by
        simp [decCharsAux, hn]]
      rw [digitsVal_append_one, ih (n / 10) hdiv,
        digitChar_val (n % 10) (Nat.mod_lt n (by omega))]
      omega

theorem digitsVal_zeros (k : Nat) (ds : List Char) :
    digitsVal (List.replicate k '0' ++ ds) = digitsVal ds := by
  induction k with
  | zero => rfl
  | succ m ih =>
    rw [List.replicate_succ, List.cons_append]
    show digitsVal (List.replicate m '0' ++ ds) = digitsVal ds
    exact ih

theorem takeWhile_append_all (p : Char → Bool) (xs ys : List Char)
    (h : ∀ c ∈ xs, p c = true) :
    (xs ++ ys).takeWhile p = xs ++ ys.takeWhile p := by
  induction xs with
  | nil => rfl
  | cons a l ih =>
    have ha : p a = true := h a (by simp)
    simp [List.takeWhile, ha]
    exact ih fun c hc => h c (by simp [hc])

theorem dropWhile_append_all (p : Char → Bool) (xs ys : List Char)
    (h : ∀ c ∈ xs, p c = true) :
    (xs ++ ys).dropWhile p = ys.dropWhile p := by
  induction xs with
  | nil => rfl
  | cons a l ih =>
    have ha : p a = true := h a (by simp)
    simp [List.dropWhile, ha]
    exact ih fun c hc => h c (by simp [hc])

theorem pad4_data (i : Nat) :
    (pad4 i).data = List.replicate (4 - (decStr i).length) '0' ++ decCharsAux (i + 1) i := by
  simp [pad4, String.data_append, decStr]

theorem pad4_digits (i : Nat) : ∀ c ∈ (pad4 i).data, c.isDigit = true := by
  intro c hc
  rw [pad4_data] at hc
  rcases List.mem_append.mp hc with hc | hc
  · have : c = '0' := List.eq_of_mem_replicate hc
    subst this
    decide
  · exact decCharsAux_digits (i + 1) i c hc

theorem pad4_len (i : Nat) : 4 ≤ (pad4 i).data.length := by
  rw [pad4_data, List.length_append, List.length_replicate]
  have : (decStr i).length = (decCharsAux (i + 1) i).length := rfl
  omega

theorem digitsVal_pad4 (i : Nat) : digitsVal ((pad4 i).data) = i := by
  rw [pad4_data, digitsVal_zeros]
  exact digitsVal_decCharsAux (i + 1) i (by omega)

theorem format_data (b t : String) (i : Nat) :
    (format_data_filename b t i).data =
      'D' :: (b.data ++ (t.data ++ ((pad4 i).data ++ extChars))) := by
  simp [format_data_filename, format_stem, String.data_append, extChars]

theorem list_len2 {α : Type} {l : List α} (h : l.length = 2) : ∃ a b, l = [a, b] := by
  match l with
  | [a, b] => exact ⟨a, b, rfl⟩

theorem list_len1 {α : Type} {l : List α} (h : l.length = 1) : ∃ a, l = [a] := by
  match l with
  | [a] => exact ⟨a, rfl⟩

theorem parse_cons (d c1 c2 t : Char) (rest : List Char) :
    parse_data_filename (String.mk (d :: c1 :: c2 :: t :: rest)) =
      if d = 'D' ∧ 4 ≤ (rest.takeWhile Char.isDigit).length ∧
          rest.dropWhile Char.isDigit = extChars then
        some (String.mk [c1, c2], String.mk [t], digitsVal (rest.takeWhile Char.isDigit))
      else none := rfl

theorem parse_format (b t : String) (i : Nat) (hb : b.length = 2) (ht : t.length = 1) :
    parse_data_filename (format_data_filename b t i) = some (b, t, i) := by
  obtain ⟨b1, b2, hb2⟩ := list_len2 (l := b.data) hb
  obtain ⟨t1, ht1⟩ := list_len1 (l := t.data) ht
  have hdata : (format_data_filename b t i).data =
      'D' :: b1 :: b2 :: t1 :: ((pad4 i).data ++ extChars) := by
    rw [format_data, hb2, ht1]
    simp
  have hstr : format_data_filename b t i =
      String.mk ('D' :: b1 :: b2 :: t1 :: ((pad4 i).data ++ extChars)) :=
    str_ext (by rw [hdata])
  have hext0 : extChars.takeWhile Char.isDigit = [] := by decide
  have hext1 : extChars.dropWhile Char.isDigit = extChars := by decide
  have htake : ((pad4 i).data ++ extChars).takeWhile Char.isDigit = (pad4 i).data := by
    rw [takeWhile_append_all Char.isDigit _ _ (pad4_digits i), hext0, List.append_nil]
  have hdrop : ((pad4 i).data ++ extChars).dropWhile Char.isDigit = extChars := by
    rw [dropWhile_append_all Char.isDigit _ _ (pad4_digits i), hext1]
  rw [hstr, parse_cons, htake, hdrop]
  rw [if_pos ⟨rfl, pad4_len i, rfl⟩]
  rw [digitsVal_pad4]
  have hbeq : String.mk [b1, b2] = b := str_ext (by rw [hb2])
  have hteq : String.mk [t1] = t := str_ext (by rw [ht1])
  rw [hbeq, hteq]

theorem baseSearch_found_aux (env : Env) (P : ProfileConf) (C : BenchConf)
    (bench exe : String) (s : ℚ) (p : String) :
    ∀ (k a : Nat) (cur : Int) (fuel : Nat), k < fuel →
    (∀ j, j < k → env.runs (a + j) ≠ RunResult.failed) →
    (∀ j, j < k → meetsB env P.size_min_MB (a + j) = false) →
    env.runs (a + k) = RunResult.artifact s p →
    ((P.size_min_MB : ℚ) ≤ s) →
    baseSearchAux env P C bench exe cur a fuel =
      some (BaseOutcome.found
        { base_size := cur * 2 ^ k
          , record := baseRecord env P C bench exe (cur * 2 ^ k) s p (a + k)
          , trace_name := baseDestName env C p (a + k)
          , attemptEnd := a + k + 1 }) := by
  intro k
  induction k with
  | zero =>
    intro a cur fuel hfuel hfail hm hk hks
    cases fuel with
    | zero => omega
    | succ f =>
      have ha : env.runs a = RunResult.artifact s p := by simpa using hk
      simp only [baseSearchAux, ha]
      rw [if_neg (not_lt.mpr hks)]
      simp [pow_zero, mul_one]
  | succ k ih =>
    intro a cur fuel hfuel hfail hm hk hks
    cases fuel with
    | zero => omega
    | succ f =>
      have hclose : a + 1 + k = a + (k + 1) := by omega
      have hpow : cur * 2 * 2 ^ k = cur * 2 ^ (k + 1) := by ring
      cases henv : env.runs a with
      | failed => exact absurd henv (by simpa using hfail 0 (by omega))
      | noArtifact =>
        simp only [baseSearchAux, henv]
        rw [← hpow, ← hclose]
        exact ih (a + 1) (cur * 2) f (by omega)
          (fun j hj => by
            have := hfail (j + 1) (by omega)
            simpa [Nat.add_assoc, Nat.add_comm 1 j] using this)
          (fun j hj => by
            have := hm (j + 1) (by omega)
            simpa [Nat.add_assoc, Nat.add_comm 1 j] using this)
          (by rw [hclose]; exact hk) hks
      | artifact s0 p0 =>
        have hlt : s0 < (P.size_min_MB : ℚ) := by
          have := hm 0 (by omega)
          simp only [meetsB, Nat.add_zero, henv] at this
          exact not_le.mp (by simpa using this)
        simp only [baseSearchAux, henv]
        rw [if_pos hlt]
        rw [← hpow, ← hclose]
        exact ih (a + 1) (cur * 2) f (by omega)
          (fun j hj => by
            have := hfail (j + 1) (by omega)
            simpa [Nat.add_assoc, Nat.add_comm 1 j] using this)
          (fun j hj => by
            have := hm (j + 1) (by omega)
            simpa [Nat.add_assoc, Nat.add_comm 1 j] using this)
          (by rw [hclose]; exact hk) hks

theorem baseSearch_abort_aux (env : Env) (P : ProfileConf) (C : BenchConf)
    (bench exe : String) :
    ∀ (k a : Nat) (cur : Int) (fuel : Nat), k < fuel →
    (∀ j, j < k → env.runs (a + j) ≠ RunResult.failed) →
    (∀ j, j < k → meetsB env P.size_min_MB (a + j) = false) →
    env.runs (a + k) = RunResult.failed →
    baseSearchAux env P C bench exe cur a fuel = some BaseOutcome.aborted := by
  intro k
  induction k with
  | zero =>
    intro a cur fuel hfuel hfail hm hk
    cases fuel with
    | zero => omega
    | succ f =>
      have ha : env.runs a = RunResult.failed := by simpa using hk
      simp [baseSearchAux, ha]
  | succ k ih =>
    intro a cur fuel hfuel hfail hm hk
    cases fuel with
    | zero => omega
    | succ f =>
      have hclose : a + 1 + k = a + (k + 1) := by omega
      cases henv : env.runs a with
      | failed => exact absurd henv (by simpa using hfail 0 (by omega))
      | noArtifact =>
        simp only [baseSearchAux, henv]
        exact ih (a + 1) (cur * 2) f (by omega)
          (fun j hj => by
            have := hfail (j + 1) (by omega)
            simpa [Nat.add_assoc, Nat.add_comm 1 j] using this)
          (fun j hj => by
            have := hm (j + 1) (by omega)
            simpa [Nat.add_assoc, Nat.add_comm 1 j] using this)
          (by rw [hclose]; exact hk)
      | artifact s0 p0 =>
        have hlt : s0 < (P.size_min_MB : ℚ) := by
          have := hm 0 (by omega)
          simp only [meetsB, Nat.add_zero, henv] at this
          exact not_le.mp (by simpa using this)
        simp only [baseSearchAux, henv]
        rw [if_pos hlt]
        exact ih (a + 1) (cur * 2) f (by omega)
          (fun j hj => by
            have := hfail (j + 1) (by omega)
            simpa [Nat.add_assoc, Nat.add_comm 1 j] using this)
          (fun j hj => by
            have := hm (j + 1) (by omega)
            simpa [Nat.add_assoc, Nat.add_comm 1 j] using this)
          (by rw [hclose]; exact hk)

theorem baseSearch_zero_aux (env : Env) (P : ProfileConf) (C : BenchConf)
    (bench exe : String)
    (h : ∀ j, env.runs j ≠ RunResult.failed ∧ meetsB env P.size_min_MB j = false) :
    ∀ (fuel a : Nat), baseSearchAux env P C bench exe 0 a fuel = none := by
  intro fuel
  induction fuel with
  | zero => intro a; rfl
  | succ f ih =>
    intro a
    cases henv : env.runs a with
    | failed => exact absurd henv (h a).1
    | noArtifact =>
      simp only [baseSearchAux, henv]
      rw [show ((0 : Int) * 2) = 0 from by ring]
      exact ih (a + 1)
    | artifact s0 p0 =>
      have hlt : s0 < (P.size_min_MB : ℚ) := by
        have := (h a).2
        simp only [meetsB, henv] at this
        exact not_le.mp (by simpa using this)
      simp only [baseSearchAux, henv]
      rw [if_pos hlt]
      rw [show ((0 : Int) * 2) = 0 from by ring]
      exact ih (a + 1)

theorem normalPass_records_length (env : Env) (P : ProfileConf) (C : BenchConf)
    (exe : String) (bsz : Int) (bench : String) :
    ∀ (L : List (List String)) (i a : Nat),
    (normalPass env P C exe bsz bench i a L).records.length = L.length := by
  intro L
  induction L with
  | nil => intro i a; rfl
  | cons c rest ih =>
    intro i a
    simp only [normalPass, List.length_cons, ih (i + 1) (a + 1)]

theorem normalPass_traces_length (env : Env) (P : ProfileConf) (C : BenchConf)
    (exe : String) (bsz : Int) (bench : String) :
    ∀ (L : List (List String)) (i a : Nat),
    (normalPass env P C exe bsz bench i a L).traces.length = L.length := by
  intro L
  induction L with
  | nil => intro i a; rfl
  | cons c rest ih =>
    intro i a
    simp only [normalPass, List.length_cons, ih (i + 1) (a + 1)]

theorem normalPass_idxEnd (env : Env) (P : ProfileConf) (C : BenchConf)
    (exe : String) (bsz : Int) (bench : String) :
    ∀ (L : List (List String)) (i a : Nat),
    (normalPass env P C exe bsz bench i a L).idxEnd = i + L.length := by
  intro L
  induction L with
  | nil => intro i a; simp [normalPass]
  | cons c rest ih =>
    intro i a
    simp only [normalPass, ih (i + 1) (a + 1), List.length_cons]
    omega

theorem normalPass_attemptEnd (env : Env) (P : ProfileConf) (C : BenchConf)
    (exe : String) (bsz : Int) (bench : String) :
    ∀ (L : List (List String)) (i a : Nat),
    (normalPass env P C exe bsz bench i a L).attemptEnd = a + L.length := by
  intro L
  induction L with
  | nil => intro i a; simp [normalPass]
  | cons c rest ih =>
    intro i a
    simp only [normalPass, ih (i + 1) (a + 1), List.length_cons]
    omega

theorem normalPass_records_getD (env : Env) (P : ProfileConf) (C : BenchConf)
    (exe : String) (bsz : Int) (bench : String) :
    ∀ (L : List (List String)) (i a j : Nat), j < L.length →
    (normalPass env P C exe bsz bench i a L).records.getD j recD =
      normalRecord env P C exe bsz bench (i + j) (a + j) (L.getD j []) := by
  intro L
  induction L with
  | nil => intro i a j hj; simp at hj
  | cons c rest ih =>
    intro i a j hj
    cases j with
    | zero => simp [normalPass]
    | succ m =>
      have hm : m < rest.length := by simpa using hj
      show (normalPass env P C exe bsz bench (i + 1) (a + 1) rest).records.getD m recD = _
      rw [ih (i + 1) (a + 1) m hm]
      congr 1 <;> omega

theorem normalPass_traces_getD (env : Env) (P : ProfileConf) (C : BenchConf)
    (exe : String) (bsz : Int) (bench : String) :
    ∀ (L : List (List String)) (i a j : Nat), j < L.length →
    (normalPass env P C exe bsz bench i a L).traces.getD j ("") =
      format_data_filename C.bench_id ("0") (i + j) := by
  intro L
  induction L with
  | nil => intro i a j hj; simp at hj
  | cons c rest ih =>
    intro i a j hj
    cases j with
    | zero => simp [normalPass]
    | succ m =>
      have hm : m < rest.length := by simpa using hj
      show (normalPass env P C exe bsz bench (i + 1) (a + 1) rest).traces.getD m ("") = _
      rw [ih (i + 1) (a + 1) m hm]
      congr 1
      omega

theorem specialPass_records_length (env : Env) (P : ProfileConf) (C : BenchConf)
    (exe : String) (bsz : Int) (bench : String) :
    ∀ (L : List (List String)) (i a : Nat),
    (specialPass env P C exe bsz bench i a L).records.length = L.length := by
  intro L
  induction L with
  | nil => intro i a; rfl
  | cons c rest ih =>
    intro i a
    simp only [specialPass, List.length_cons, ih (i + 1) (a + 1)]

theorem specialPass_traces_length (env : Env) (P : ProfileConf) (C : BenchConf)
    (exe : String) (bsz : Int) (bench : String) :
    ∀ (L : List (List String)) (i a : Nat),
    (specialPass env P C exe bsz bench i a L).traces.length = L.length := by
  intro L
  induction L with
  | nil => intro i a; rfl
  | cons c rest ih =>
    intro i a
    simp only [specialPass, List.length_cons, ih (i + 1) (a + 1)]

theorem specialPass_records_getD (env : Env) (P : ProfileConf) (C : BenchConf)
    (exe : String) (bsz : Int) (bench : String) :
    ∀ (L : List (List String)) (i a j : Nat), j < L.length →
    (specialPass env P C exe bsz bench i a L).records.getD j recD =
      specialRecord env P C exe bsz bench (i + j) (a + j) (L.getD j []) := by
  intro L
  induction L with
  | nil => intro i a j hj; simp at hj
  | cons c rest ih =>
    intro i a j hj
    cases j with
    | zero => simp [specialPass]
    | succ m =>
      have hm : m < rest.length := by simpa using hj
      show (specialPass env P C exe bsz bench (i + 1) (a + 1) rest).records.getD m recD = _
      rw [ih (i + 1) (a + 1) m hm]
      congr 1 <;> omega

theorem specialPass_traces_getD (env : Env) (P : ProfileConf) (C : BenchConf)
    (exe : String) (bsz : Int) (bench : String) :
    ∀ (L : List (List String)) (i a j : Nat), j < L.length →
    (specialPass env P C exe bsz bench i a L).traces.getD j ("") =
      format_data_filename C.bench_id ("1") (i + j) := by
  intro L
  induction L with
  | nil => intro i a j hj; simp at hj
  | cons c rest ih =>
    intro i a j hj
    cases j with
    | zero => simp [specialPass]
    | succ m =>
      have hm : m < rest.length := by simpa using hj
      show (specialPass env P C exe bsz bench (i + 1) (a + 1) rest).traces.getD m ("") = _
      rw [ih (i + 1) (a + 1) m hm]
      congr 1
      omega

theorem process_eq (env : Env) (P : ProfileConf) (C : BenchConf)
    (bench exe : String) (fuel : Nat) (r : BaseResult)
    (h1 : env.nameKnown = true) (h2 : env.dirOk = true) (h3 : env.buildOk = true)
    (hb : baseSearchAux env P C bench exe C.size_arg_start 0 fuel = some (BaseOutcome.found r)) :
    process_benchmark env P C bench exe fuel = some
      { status := 0
        , records := r.record ::
            (normalPass env P C exe r.base_size bench 1 r.attemptEnd (normal_combinations C)).records ++
            (specialPass env P C exe r.base_size bench (1 + (normal_combinations C).length)
              (r.attemptEnd + (normal_combinations C).length) C.special_arg_list).records
        , traces := r.trace_name ::
            (normalPass env P C exe r.base_size bench 1 r.attemptEnd (normal_combinations C)).traces ++
            (specialPass env P C exe r.base_size bench (1 + (normal_combinations C).length)
              (r.attemptEnd + (normal_combinations C).length) C.special_arg_list).traces
        , recfiles := (r.record.id ++ (".json")) ::
            (normalPass env P C exe r.base_size bench 1 r.attemptEnd (normal_combinations C)).recfiles ++
            (specialPass env P C exe r.base_size bench (1 + (normal_combinations C).length)
              (r.attemptEnd + (normal_combinations C).length) C.special_arg_list).recfiles } := by
  simp only [process_benchmark, h1, h2, h3, hb, if_true]
  rw [normalPass_idxEnd, normalPass_attemptEnd]

theorem sum_map_const {α : Type} (P : Nat) : ∀ (l : List α), (l.map fun _ => P).sum = l.length * P := by
  intro l
  induction l with
  | nil => simp
  | cons x rest ih => simp [List.map_cons, List.sum_cons, ih, Nat.succ_mul]; omega

theorem prodLens_cons {α : Type} (l : List α) (ls : List (List α)) :
    prodLens (l :: ls) = l.length * prodLens ls := by
  simp [prodLens]

theorem pyProduct_length {α : Type} : ∀ (ls : List (List α)),
    (pyProduct ls).length = prodLens ls := by
  intro ls
  induction ls with
  | nil => rfl
  | cons l rest ih =>
    show (l.flatMap fun x => (pyProduct rest).map fun r => x :: r).length = _
    rw [List.length_flatMap]
    rw [show (l.map (List.length ∘ fun x => (pyProduct rest).map fun r => x :: r)) =
        l.map fun _ => prodLens rest from by
      apply List.map_congr_left
      intro a ha
      simp [Function.comp, ih]]
    rw [sum_map_const, prodLens_cons]

theorem getElem?_flatMap_uniform {α β : Type} (f : α → List β) (P : Nat)
    (hP : ∀ x, (f x).length = P) (d : α) :
    ∀ (l : List α) (j : Nat), j < l.length * P →
    (l.flatMap f)[j]? = (f (l.getD (j / P) d))[j % P]? := by
  intro l
  induction l with
  | nil => intro j hj; simp at hj
  | cons x rest ih =>
    intro j hj
    rcases Nat.eq_zero_or_pos P with hP0 | hP0
    · rw [hP0] at hj; simp at hj
    rw [List.flatMap_cons]
    by_cases hjP : j < P
    · rw [List.getElem?_append_left (by rw [hP x]; exact hjP)]
      rw [Nat.div_eq_of_lt hjP, Nat.mod_eq_of_lt hjP]
      rfl
    · have hle : P ≤ j := by omega
      rw [List.getElem?_append_right (by rw [hP x]; exact hle)]
      rw [hP x]
      obtain ⟨m, rfl⟩ : ∃ m, j = m + P := ⟨j - P, by omega⟩
      rw [Nat.add_sub_cancel, Nat.add_div_right m hP0, Nat.add_mod_right m P]
      show (rest.flatMap f)[m]? = (f ((x :: rest).getD (m / P + 1) d))[m % P]?
      rw [List.getD_cons_succ]
      apply ih
      rw [List.length_cons, Nat.succ_mul] at hj
      omega

theorem pyProduct_getElem? {α : Type} (d : α) : ∀ (ls : List (List α)) (j : Nat),
    j < prodLens ls → (pyProduct ls)[j]? = some (lexIndex ls d j) := by
  intro ls
  induction ls with
  | nil =>
    intro j hj
    have hj0 : j = 0 := by
      have : prodLens ([] : List (List α)) = 1 := rfl
      omega
    subst hj0
    rfl
  | cons l rest ih =>
    intro j hj
    have hlen : ∀ x : α, ((pyProduct rest).map fun r => x :: r).length = prodLens rest := by
      intro x
      rw [List.length_map, pyProduct_length]
    have hj' : j < l.length * prodLens rest := by rwa [prodLens_cons] at hj
    have hpos : 0 < prodLens rest := by
      rcases Nat.eq_zero_or_pos (prodLens rest) with h0 | h0
      · rw [h0] at hj'; omega
      · exact h0
    show (l.flatMap fun x => (pyProduct rest).map fun r => x :: r)[j]? = _
    rw [getElem?_flatMap_uniform _ (prodLens rest) hlen d l j hj']
    rw [List.getElem?_map]
    rw [ih (j % prodLens rest) (Nat.mod_lt _ hpos)]
    rfl

theorem joinSpace_cons_ne (x : String) (l : List String) (h : l ≠ []) :
    joinSpace (x :: l) = x ++ (" ") ++ joinSpace l := by
  cases l with
  | nil => exact absurd rfl h
  | cons y rest => rfl

theorem flatten_pairs_ne (ps : List (String × String)) (h : ps ≠ []) :
    ((ps.map fun q => [q.1, q.2]).flatten) ≠ [] := by
  cases ps with
  | nil => exact absurd rfl h
  | cons q rest => simp [List.flatten_cons]

theorem joinSpace_pairs : ∀ (ps : List (String × String)),
    joinSpace (ps.map fun q => q.1 ++ (" ") ++ q.2) =
      joinSpace ((ps.map fun q => [q.1, q.2]).flatten) := by
  intro ps
  induction ps with
  | nil => rfl
  | cons q rest ih =>
    cases hr : rest with
    | nil => rfl
    | cons q2 rest2 =>
      have hne : rest ≠ [] := by rw [hr]; exact List.cons_ne_nil q2 rest2
      have hmapne : rest.map (fun q => q.1 ++ (" ") ++ q.2) ≠ [] := by
        rw [hr]; exact List.cons_ne_nil _ _
      have hflatne : ((rest.map fun q => [q.1, q.2]).flatten) ≠ [] :=
        flatten_pairs_ne rest hne
      rw [← hr] at *
      rw [List.map_cons, joinSpace_cons_ne _ _ hmapne, ih]
      rw [List.map_cons, List.flatten_cons]
      show _ = joinSpace (q.1 :: q.2 :: (rest.map fun q => [q.1, q.2]).flatten)
      rw [joinSpace_cons_ne q.1 _ (by simp), joinSpace_cons_ne q.2 _ hflatne]
      rw [String.append_assoc, String.append_assoc, String.append_assoc q.2]

theorem joinSpace_congr_pairs : ∀ (xs : List String) (ps : List (String × String)),
    joinSpace (xs ++ ps.map fun q => q.1 ++ (" ") ++ q.2) =
      joinSpace (xs ++ (ps.map fun q => [q.1, q.2]).flatten) := by
  intro xs
  induction xs with
  | nil => intro ps; simpa using joinSpace_pairs ps
  | cons x xs0 ih =>
    intro ps
    by_cases hps : ps = []
    · subst hps; simp
    · have hA : xs0 ++ ps.map (fun q => q.1 ++ (" ") ++ q.2) ≠ [] := by
        intro hcontra
        rcases List.append_eq_nil.mp hcontra with ⟨_, h2⟩
        exact hps (List.map_eq_nil_iff.mp h2)
      have hB : xs0 ++ ((ps.map fun q => [q.1, q.2]).flatten) ≠ [] := by
        intro hcontra
        rcases List.append_eq_nil.mp hcontra with ⟨_, h2⟩
        exact flatten_pairs_ne ps hps h2
      rw [List.cons_append, List.cons_append, joinSpace_cons_ne x _ hA,
        joinSpace_cons_ne x _ hB, ih ps]

/-- C1: for every starting size (nonnegative, as sizes are), size-flag name
and threshold, and every deterministic run-outcome sequence in which each
attempt before and including the first threshold-meeting one succeeds, the
base-size search concludes at the first index k whose artifact meets the
threshold, returning `start * 2 ^ k` — the smallest value among all
qualifying doubling values — and the base record's size field is the
measured size formatted as `<size> MB`. -/
theorem claim_base_size_search_least (env : Env) (P : ProfileConf) (C : BenchConf)
    (bench exe : String) (k fuel : Nat) (s : ℚ) (p : String)
    (hstart : 0 ≤ C.size_arg_start)
    (hfuel : k < fuel)
    (hfail : ∀ j, j < k → env.runs j ≠ RunResult.failed)
    (hm : ∀ j, j < k → meetsB env P.size_min_MB j = false)
    (hk : env.runs k = RunResult.artifact s p)
    (hks : (P.size_min_MB : ℚ) ≤ s) :
    baseSearchAux env P C bench exe C.size_arg_start 0 fuel =
      some (BaseOutcome.found
        { base_size := C.size_arg_start * 2 ^ k
          , record := baseRecord env P C bench exe (C.size_arg_start * 2 ^ k) s p k
          , trace_name := baseDestName env C p k
          , attemptEnd := k + 1 })
    ∧ (∀ j, meetsB env P.size_min_MB j = true →
        C.size_arg_start * 2 ^ k ≤ C.size_arg_start * 2 ^ j)
    ∧ (baseRecord env P C bench exe (C.size_arg_start * 2 ^ k) s p k).size =
        floatRepr s ++ (" MB") := by
  refine ⟨?_, ?_, rfl⟩
  · have h := baseSearch_found_aux env P C bench exe s p k 0 C.size_arg_start fuel hfuel
      (fun j hj => by simpa using hfail j hj)
      (fun j hj => by simpa using hm j hj)
      (by simpa using hk) hks
    simpa using h
  · intro j hj
    have hkj : k ≤ j := by
      by_contra hlt
      push_neg at hlt
      rw [hm j hlt] at hj
      cases hj
    exact mul_le_mul_of_nonneg_left (pow_le_pow_right₀ (by norm_num) hkj) hstart

/-- C1 witness: start 1, threshold 5 MB, outcomes no-artifact, 2 MB, 2 MB,
6 MB give base size 8 and size field `6.0 MB`. -/
theorem claim_base_size_search_least_witness :
    (baseSearchAux envA Pex Cex benchX exeX Cex.size_arg_start 0 4 =
      some (BaseOutcome.found
        { base_size := Cex.size_arg_start * 2 ^ 3
          , record := baseRecord envA Pex Cex benchX exeX (Cex.size_arg_start * 2 ^ 3) 6
              ("akita_sim_001.sqlite3") 3
          , trace_name := baseDestName envA Cex ("akita_sim_001.sqlite3") 3
          , attemptEnd := 3 + 1 }))
    ∧ Cex.size_arg_start * 2 ^ 3 = 8
    ∧ (baseRecord envA Pex Cex benchX exeX (Cex.size_arg_start * 2 ^ 3) 6
        ("akita_sim_001.sqlite3") 3).size = ("6.0 MB") := by
  refine ⟨?_, by decide, by decide⟩
  exact (claim_base_size_search_least envA Pex Cex benchX exeX 3 4 6 ("akita_sim_001.sqlite3")
    (by decide) (by decide) (by decide) (by decide) (by decide) (by decide)).1

/-- C6: if an attempt during the base-size search exits nonzero (the first
k attempts having succeeded without meeting the threshold), the benchmark
processing returns status 1 and the record store, summary trace list and
record-filename list are all empty. -/
theorem claim_base_search_failure_aborts (env : Env) (P : ProfileConf) (C : BenchConf)
    (bench exe : String) (k fuel : Nat)
    (h1 : env.nameKnown = true) (h2 : env.dirOk = true) (h3 : env.buildOk = true)
    (hfuel : k < fuel)
    (hfail : ∀ j, j < k → env.runs j ≠ RunResult.failed)
    (hm : ∀ j, j < k → meetsB env P.size_min_MB j = false)
    (hk : env.runs k = RunResult.failed) :
    process_benchmark env P C bench exe fuel =
      some { status := 1, records := [], traces := [], recfiles := [] } := by
  have habort := baseSearch_abort_aux env P C bench exe k 0 C.size_arg_start fuel hfuel
    (fun j hj => by simpa using hfail j hj)
    (fun j hj => by simpa using hm j hj)
    (by simpa using hk)
  simp [process_benchmark, h1, h2, h3, habort]

/-- C6 witness: with a no-artifact first attempt and a nonzero exit on the
second, processing returns status 1 and writes nothing. -/
theorem claim_base_search_failure_aborts_witness :
    process_benchmark envC Pex Cex benchX exeX 2 =
      some { status := 1, records := [], traces := [], recfiles := [] } :=
  claim_base_search_failure_aborts envC Pex Cex benchX exeX 1 2
    (by decide) (by decide) (by decide) (by decide) (by decide) (by decide) (by decide)

/-- C9: with starting size 0 and every attempt succeeding below the
threshold (or with no artifact), the doubling update `0 * 2 = 0` never
advances the size and the base-size search loop never concludes: for every
amount of fuel the search is still undecided. -/
theorem claim_zero_start_search_stalls (env : Env) (P : ProfileConf) (C : BenchConf)
    (bench exe : String) (h0 : C.size_arg_start = 0)
    (hall : ∀ j, env.runs j ≠ RunResult.failed ∧ meetsB env P.size_min_MB j = false) :
    ∀ fuel, baseSearchAux env P C bench exe C.size_arg_start 0 fuel = none := by
  intro fuel
  rw [h0]
  exact baseSearch_zero_aux env P C bench exe hall fuel 0

/-- C9 witness: starting size 0 with runs that always succeed without an
artifact leaves the search undecided even after 1000 iterations. -/
theorem claim_zero_start_search_stalls_witness :
    baseSearchAux envD Pex Cex0 benchX exeX Cex0.size_arg_start 0 1000 = none :=
  claim_zero_start_search_stalls envD Pex Cex0 benchX exeX rfl
    (fun j => ⟨fun h => RunResult.noConfusion h, rfl⟩) 1000

/-- C3 counterexample: at the base run, when the relocation of the
6 MB artifact fails, the written record's trace-file field holds the
artifact's original name, not the nominal destination filename
`D0300000.sqlite3` — refuting the claim for the base run. -/
theorem claim_trace_file_nominal_cex :
    foundTrace (baseSearchAux envB Pex Cex benchX exeX 1 0 1) = ("akita_sim_001.sqlite3")
    ∧ format_data_filename (("03")) (("0")) 0 = ("D0300000.sqlite3")
    ∧ foundTrace (baseSearchAux envB Pex Cex benchX exeX 1 0 1) ≠
        format_data_filename (("03")) (("0")) 0 :=
  ⟨by decide, by decide, by decide⟩

/-- C3 (amended): for every normal-pass and special-pass run the record
names the nominal deterministic destination filename in its trace-file
field whatever the relocation outcome; for the base run, however, a failed
relocation makes the record name the artifact's original final path
component instead. -/
theorem claim_trace_file_nominal_amended (env : Env) (P : ProfileConf) (C : BenchConf)
    (exe bench : String) (bsz cur : Int) (idxN aN idxS aS k : Nat)
    (combo toks : List String) (s : ℚ) (p : String)
    (hmv : env.moveOk k = false) :
    (normalRecord env P C exe bsz bench idxN aN combo).trace_file =
      format_data_filename C.bench_id ("0") idxN
    ∧ (specialRecord env P C exe bsz bench idxS aS toks).trace_file =
      format_data_filename C.bench_id ("1") idxS
    ∧ (baseRecord env P C bench exe cur s p k).trace_file = pathName p := by
  refine ⟨rfl, rfl, ?_⟩
  simp [baseRecord, baseDestName, hmv]

/-- C3 witness: concrete instantiation of the amended statement. -/
theorem claim_trace_file_nominal_amended_witness :
    (normalRecord envB Pex Cex exeX 8 benchX 1 1 [("1"), ("10")]).trace_file =
      format_data_filename Cex.bench_id ("0") 1
    ∧ (specialRecord envB Pex Cex exeX 8 benchX 5 5 [("-magic"), ("7")]).trace_file =
      format_data_filename Cex.bench_id ("1") 5
    ∧ (baseRecord envB Pex Cex benchX exeX 1 6 ("akita_sim_001.sqlite3") 0).trace_file =
      pathName ("akita_sim_001.sqlite3") :=
  claim_trace_file_nominal_amended envB Pex Cex exeX benchX 8 1 1 1 5 5 0
    [("1"), ("10")] [("-magic"), ("7")] 6 ("akita_sim_001.sqlite3") (by decide)

/-- C2 counterexample: for a concrete normal-pass run the record's command
string is `kmeans -timing -a 1 -b 10`, while the executed command's
components (executable name, base arguments, size flag with accepted base
size, combination pairs) join to `kmeans -timing -points 8 -a 1 -b 10`:
the record omits the size flag and base size. -/
theorem claim_normal_record_cmd_cex :
    (normalRecord envE Pex Cex exeX 8 benchX 1 1 [("1"), ("10")]).benchmark_cmd =
      ("kmeans -timing -a 1 -b 10")
    ∧ joinSpace ([pathName exeX] ++ Pex.base_args ++ [Cex.size_arg_name, intDecStr 8] ++
        ((Cex.normal_arg_list.zip [("1"), ("10")]).map (fun q => [q.1, q.2])).flatten) =
      ("kmeans -timing -points 8 -a 1 -b 10")
    ∧ (normalRecord envE Pex Cex exeX 8 benchX 1 1 [("1"), ("10")]).benchmark_cmd ≠
      joinSpace ([pathName exeX] ++ Pex.base_args ++ [Cex.size_arg_name, intDecStr 8] ++
        ((Cex.normal_arg_list.zip [("1"), ("10")]).map (fun q => [q.1, q.2])).flatten) :=
  ⟨by decide, by decide, by decide⟩

/-- C2 (amended): the executed normal-pass command is the executable path,
the fixed base arguments, the size flag with the accepted base size, and
the combination's flag/value pairs in declared order; the record's command
string reconstructs it with the executable path replaced by its final path
component and the size flag and base size omitted. -/
theorem claim_normal_record_cmd_amended (env : Env) (P : ProfileConf) (C : BenchConf)
    (exe bench : String) (bsz : Int) (idx a : Nat) (combo : List String) :
    normalCmd P C exe bsz combo =
      [exe] ++ P.base_args ++ [C.size_arg_name, intDecStr bsz] ++
        ((C.normal_arg_list.zip combo).map fun q => [q.1, q.2]).flatten
    ∧ (normalRecord env P C exe bsz bench idx a combo).benchmark_cmd =
      joinSpace (([pathName exe] ++ P.base_args) ++
        ((C.normal_arg_list.zip combo).map fun q => [q.1, q.2]).flatten) := by
  refine ⟨rfl, ?_⟩
  exact joinSpace_congr_pairs ([pathName exe] ++ P.base_args) (C.normal_arg_list.zip combo)

theorem getD_append_left {α : Type} (l1 l2 : List α) (j : Nat) (d : α)
    (h : j < l1.length) : (l1 ++ l2).getD j d = l1.getD j d := by
  simp [List.getD, List.getElem?_append_left h]

theorem getD_append_right {α : Type} (l1 l2 : List α) (j : Nat) (d : α)
    (h : l1.length ≤ j) : (l1 ++ l2).getD j d = l2.getD (j - l1.length) d := by
  simp [List.getD, List.getElem?_append_right h]

/-- C4: after the base run (index 0) the index counter restarts at 1 and
advances once per sweep run across both passes: the j-th normal record
carries index j+1, and the j-th special record and special summary trace
entry carry index K+1+j where K is the number of normal combinations — in
particular the first special-pass index is K+1 and special indices never
restart at 1. -/
theorem claim_shared_counter (env : Env) (P : ProfileConf) (C : BenchConf)
    (bench exe : String) (fuel : Nat) (r : BaseResult)
    (h1 : env.nameKnown = true) (h2 : env.dirOk = true) (h3 : env.buildOk = true)
    (hb : baseSearchAux env P C bench exe C.size_arg_start 0 fuel = some (BaseOutcome.found r)) :
    (∀ j, j < (normal_combinations C).length →
      ((procRecords (process_benchmark env P C bench exe fuel)).getD (j + 1) recD).id =
        format_stem C.bench_id ("0") (j + 1))
    ∧ (∀ j, j < C.special_arg_list.length →
      ((procRecords (process_benchmark env P C bench exe fuel)).getD
          ((normal_combinations C).length + 1 + j) recD).id =
        format_stem C.bench_id ("1") ((normal_combinations C).length + 1 + j))
    ∧ (∀ j, j < C.special_arg_list.length →
      (procTraces (process_benchmark env P C bench exe fuel)).getD
          ((normal_combinations C).length + 1 + j) ("") =
        format_data_filename C.bench_id ("1") ((normal_combinations C).length + 1 + j)) := by
  rw [process_eq env P C bench exe fuel r h1 h2 h3 hb]
  refine ⟨?_, ?_, ?_⟩
  · intro j hj
    show (((_ :: _ ++ _ : List DataRecord)).getD (j + 1) recD).id = _
    rw [getD_append_left _ _ (j + 1) recD
      (by simp only [List.length_cons, normalPass_records_length]; omega)]
    rw [List.getD_cons_succ]
    rw [normalPass_records_getD env P C exe r.base_size bench _ 1 r.attemptEnd j hj]
    show format_stem C.bench_id ("0") (1 + j) = _
    rw [Nat.add_comm 1 j]
  · intro j hj
    show (((_ :: _ ++ _ : List DataRecord)).getD _ recD).id = _
    rw [getD_append_right _ _ _ recD
      (by simp only [List.length_cons, normalPass_records_length]; omega)]
    rw [List.length_cons, normalPass_records_length]
    rw [show (normal_combinations C).length + 1 + j -
        ((normal_combinations C).length + 1) = j from by omega]
    rw [specialPass_records_getD env P C exe r.base_size bench _ _ _ j hj]
    show format_stem C.bench_id ("1") (1 + (normal_combinations C).length + j) = _
    rw [show 1 + (normal_combinations C).length + j =
        (normal_combinations C).length + 1 + j from by omega]
  · intro j hj
    show (((_ :: _ ++ _ : List String)).getD _ ("")) = _
    rw [getD_append_right _ _ _ ("")
      (by simp only [List.length_cons, normalPass_traces_length]; omega)]
    rw [List.length_cons, normalPass_traces_length]
    rw [show (normal_combinations C).length + 1 + j -
        ((normal_combinations C).length + 1) = j from by omega]
    rw [specialPass_traces_getD env P C exe r.base_size bench _ _ _ j hj]
    rw [show 1 + (normal_combinations C).length + j =
        (normal_combinations C).length + 1 + j from by omega]

/-- C4 witness: with four normal combinations and one special entry, the
first normal record has index 1 and the first special record and summary
trace entry carry index 5 = K + 1. -/
theorem claim_shared_counter_witness :
    ((procRecords (process_benchmark envE Pex Cex benchX exeX 5)).getD (0 + 1) recD).id =
      format_stem Cex.bench_id ("0") (0 + 1)
    ∧ ((procRecords (process_benchmark envE Pex Cex benchX exeX 5)).getD
        ((normal_combinations Cex).length + 1 + 0) recD).id =
      format_stem Cex.bench_id ("1") ((normal_combinations Cex).length + 1 + 0)
    ∧ (procTraces (process_benchmark envE Pex Cex benchX exeX 5)).getD
        ((normal_combinations Cex).length + 1 + 0) ("") =
      format_data_filename Cex.bench_id ("1") ((normal_combinations Cex).length + 1 + 0) := by
  have h := claim_shared_counter envE Pex Cex benchX exeX 5 rE
    (by decide) (by decide) (by decide) (by decide)
  exact ⟨h.1 0 (by decide), h.2.1 0 (by decide), h.2.2 0 (by decide)⟩

/-- C7: once the base search has succeeded (and name, directory and build
checks passed), a nonzero exit in any normal or special sweep run is
non-fatal: the overall status is 0, one record per combination and per
special entry is still written (1 + K + S records in total), and the record
at the failing run's index has size field `0 MB`. -/
theorem claim_sweep_failure_nonfatal (env : Env) (P : ProfileConf) (C : BenchConf)
    (bench exe : String) (fuel : Nat) (r : BaseResult)
    (h1 : env.nameKnown = true) (h2 : env.dirOk = true) (h3 : env.buildOk = true)
    (hb : baseSearchAux env P C bench exe C.size_arg_start 0 fuel = some (BaseOutcome.found r)) :
    procStatus (process_benchmark env P C bench exe fuel) = 0
    ∧ (procRecords (process_benchmark env P C bench exe fuel)).length =
        1 + (normal_combinations C).length + C.special_arg_list.length
    ∧ (∀ j, j < (normal_combinations C).length →
        env.runs (r.attemptEnd + j) = RunResult.failed →
        ((procRecords (process_benchmark env P C bench exe fuel)).getD (j + 1) recD).size =
          ("0 MB"))
    ∧ (∀ j, j < C.special_arg_list.length →
        env.runs (r.attemptEnd + (normal_combinations C).length + j) = RunResult.failed →
        ((procRecords (process_benchmark env P C bench exe fuel)).getD
            ((normal_combinations C).length + 1 + j) recD).size = ("0 MB")) := by
  rw [process_eq env P C bench exe fuel r h1 h2 h3 hb]
  refine ⟨rfl, ?_, ?_, ?_⟩
  · show ((_ :: _ ++ _ : List DataRecord)).length = _
    simp only [List.length_append, List.length_cons,
      normalPass_records_length, specialPass_records_length]
    omega
  · intro j hj hrun
    show (((_ :: _ ++ _ : List DataRecord)).getD (j + 1) recD).size = _
    rw [getD_append_left _ _ (j + 1) recD
      (by simp only [List.length_cons, normalPass_records_length]; omega)]
    rw [List.getD_cons_succ]
    rw [normalPass_records_getD env P C exe r.base_size bench _ 1 r.attemptEnd j hj]
    show sizeField (env.runs (r.attemptEnd + j)) = _
    rw [hrun]
    rfl
  · intro j hj hrun
    show (((_ :: _ ++ _ : List DataRecord)).getD _ recD).size = _
    rw [getD_append_right _ _ _ recD
      (by simp only [List.length_cons, normalPass_records_length]; omega)]
    rw [List.length_cons, normalPass_records_length]
    rw [show (normal_combinations C).length + 1 + j -
        ((normal_combinations C).length + 1) = j from by omega]
    rw [specialPass_records_getD env P C exe r.base_size bench _ _ _ j hj]
    show sizeField (env.runs (r.attemptEnd + (normal_combinations C).length + j)) = _
    rw [hrun]
    rfl

/-- C7 witness: with the first normal run (invocation 1) exiting nonzero,
status is still 0, six records (1 + 4 + 1) are written, and the record at
index 1 has size `0 MB`. -/
theorem claim_sweep_failure_nonfatal_witness :
    procStatus (process_benchmark envE Pex Cex benchX exeX 5) = 0
    ∧ (procRecords (process_benchmark envE Pex Cex benchX exeX 5)).length =
        1 + (normal_combinations Cex).length + Cex.special_arg_list.length
    ∧ ((procRecords (process_benchmark envE Pex Cex benchX exeX 5)).getD (0 + 1) recD).size =
        ("0 MB") := by
  have h := claim_sweep_failure_nonfatal envE Pex Cex benchX exeX 5 rE
    (by decide) (by decide) (by decide) (by decide)
  exact ⟨h.1, h.2.1, h.2.2.1 0 (by decide) (by decide)⟩

/-- C10: the summary's trace list has exactly 1 + K + S entries whatever
the run outcomes: the base entry first, then one nominal normal filename
per combination at index j+1, then one nominal special filename per entry
at index K+1+j — entries are appended even for runs that failed or
produced no artifact, so they may name files that were never created. -/
theorem claim_summary_traces_complete (env : Env) (P : ProfileConf) (C : BenchConf)
    (bench exe : String) (fuel : Nat) (r : BaseResult)
    (h1 : env.nameKnown = true) (h2 : env.dirOk = true) (h3 : env.buildOk = true)
    (hb : baseSearchAux env P C bench exe C.size_arg_start 0 fuel = some (BaseOutcome.found r)) :
    (procTraces (process_benchmark env P C bench exe fuel)).length =
        1 + (normal_combinations C).length + C.special_arg_list.length
    ∧ (procTraces (process_benchmark env P C bench exe fuel)).getD 0 ("") = r.trace_name
    ∧ (∀ j, j < (normal_combinations C).length →
        (procTraces (process_benchmark env P C bench exe fuel)).getD (j + 1) ("") =
          format_data_filename C.bench_id ("0") (j + 1))
    ∧ (∀ j, j < C.special_arg_list.length →
        (procTraces (process_benchmark env P C bench exe fuel)).getD
            ((normal_combinations C).length + 1 + j) ("") =
          format_data_filename C.bench_id ("1") ((normal_combinations C).length + 1 + j)) := by
  rw [process_eq env P C bench exe fuel r h1 h2 h3 hb]
  refine ⟨?_, rfl, ?_, ?_⟩
  · show ((_ :: _ ++ _ : List String)).length = _
    simp only [List.length_append, List.length_cons,
      normalPass_traces_length, specialPass_traces_length]
    omega
  · intro j hj
    show ((_ :: _ ++ _ : List String)).getD (j + 1) ("") = _
    rw [getD_append_left _ _ (j + 1) ("")
      (by simp only [List.length_cons, normalPass_traces_length]; omega)]
    rw [List.getD_cons_succ]
    rw [normalPass_traces_getD env P C exe r.base_size bench _ 1 r.attemptEnd j hj]
    rw [Nat.add_comm 1 j]
  · intro j hj
    show ((_ :: _ ++ _ : List String)).getD _ ("") = _
    rw [getD_append_right _ _ _ ("")
      (by simp only [List.length_cons, normalPass_traces_length]; omega)]
    rw [List.length_cons, normalPass_traces_length]
    rw [show (normal_combinations C).length + 1 + j -
        ((normal_combinations C).length + 1) = j from by omega]
    rw [specialPass_traces_getD env P C exe r.base_size bench _ _ _ j hj]
    rw [show 1 + (normal_combinations C).length + j =
        (normal_combinations C).length + 1 + j from by omega]

/-- C10 witness: six trace entries, headed by the base trace name, with
the first normal entry `D0300001.sqlite3` even though that run failed. -/
theorem claim_summary_traces_complete_witness :
    (procTraces (process_benchmark envE Pex Cex benchX exeX 5)).length =
        1 + (normal_combinations Cex).length + Cex.special_arg_list.length
    ∧ (procTraces (process_benchmark envE Pex Cex benchX exeX 5)).getD 0 ("") = rE.trace_name
    ∧ (procTraces (process_benchmark envE Pex Cex benchX exeX 5)).getD (0 + 1) ("") =
        format_data_filename Cex.bench_id ("0") (0 + 1) := by
  have h := claim_summary_traces_complete envE Pex Cex benchX exeX 5 rE
    (by decide) (by decide) (by decide) (by decide)
  exact ⟨h.1, h.2.1, h.2.2.1 0 (by decide)⟩

/-- C5: for a nonempty declared flag list, the normal pass enumerates
exactly the full Cartesian product of the declared per-flag value lists in
lexicographic order over the declared sequences (last flag varying
fastest): there are exactly `prodLens` combinations and the j-th one is the
mixed-radix selection `lexIndex` of j. -/
theorem claim_normal_combinations_lex (C : BenchConf) (d : String) (j : Nat)
    (h : C.normal_arg_list ≠ [])
    (hj : j < prodLens (normalValuesLists C)) :
    (normal_combinations C).length = prodLens (normalValuesLists C)
    ∧ (normal_combinations C)[j]? = some (lexIndex (normalValuesLists C) d j) := by
  have hne : normalValuesLists C ≠ [] := by
    intro hc
    rw [normalValuesLists] at hc
    exact h (List.map_eq_nil_iff.mp hc)
  have hcomb : normal_combinations C = pyProduct (normalValuesLists C) := by
    simp [normal_combinations, hne]
  rw [hcomb]
  exact ⟨pyProduct_length _, pyProduct_getElem? d _ j hj⟩

/-- C5 witness: flags `-a`, `-b` with values 1, 2 and 10, 20 enumerate
exactly (1,10), (1,20), (2,10), (2,20) in that order. -/
theorem claim_normal_combinations_lex_witness :
    ((normal_combinations Cex).length = prodLens (normalValuesLists Cex)
      ∧ (normal_combinations Cex)[0]? = some (lexIndex (normalValuesLists Cex) ("") 0))
    ∧ (normal_combinations Cex)[1]? = some (lexIndex (normalValuesLists Cex) ("") 1)
    ∧ (normal_combinations Cex)[2]? = some (lexIndex (normalValuesLists Cex) ("") 2)
    ∧ (normal_combinations Cex)[3]? = some (lexIndex (normalValuesLists Cex) ("") 3)
    ∧ normal_combinations Cex =
        [[("1"), ("10")], [("1"), ("20")], [("2"), ("10")], [("2"), ("20")]]
    ∧ prodLens (normalValuesLists Cex) = 4 := by
  refine ⟨claim_normal_combinations_lex Cex ("") 0 (by decide) (by decide),
    (claim_normal_combinations_lex Cex ("") 1 (by decide) (by decide)).2,
    (claim_normal_combinations_lex Cex ("") 2 (by decide) (by decide)).2,
    (claim_normal_combinations_lex Cex ("") 3 (by decide) (by decide)).2,
    by decide, by decide⟩

/-- C8: filename formatting is pure and injective: for a 2-character bench
id and type id `0` or `1`, parsing the formatted name recovers the
identical triple, so no two distinct (bench_id, type_id, index) triples of
that shape share a filename. -/
theorem claim_filename_roundtrip (b t : String) (i : Nat)
    (hb : b.length = 2) (ht : t = ("0") ∨ t = ("1")) :
    parse_data_filename (format_data_filename b t i) = some (b, t, i)
    ∧ (∀ b2 t2 i2, b2.length = 2 → (t2 = ("0") ∨ t2 = ("1")) →
        format_data_filename b2 t2 i2 = format_data_filename b t i →
        b2 = b ∧ t2 = t ∧ i2 = i) := by
  have ht1 : t.length = 1 := by rcases ht with h | h <;> subst h <;> rfl
  have h1 := parse_format b t i hb ht1
  refine ⟨h1, ?_⟩
  intro b2 t2 i2 hb2 ht2 heq
  have ht21 : t2.length = 1 := by rcases ht2 with h | h <;> subst h <;> rfl
  have h2 := parse_format b2 t2 i2 hb2 ht21
  rw [heq, h1] at h2
  have h3 : (b2, t2, i2) = (b, t, i) := by
    injection h2 with hv
    exact hv.symm
  rw [Prod.ext_iff, Prod.ext_iff] at h3
  exact ⟨h3.1, h3.2.1, h3.2.2⟩

/-- C8 witness: `D0300007.sqlite3` parses back to (`03`, `0`, 7). -/
theorem claim_filename_roundtrip_witness :
    parse_data_filename (format_data_filename ("03") ("0") 7) =
      some ((("03"), (("0"), 7)))
    ∧ format_data_filename ("03") ("0") 7 = ("D0300007.sqlite3") :=
  ⟨(claim_filename_roundtrip ("03") ("0") 7 (by decide) (Or.inl rfl)).1, by decide⟩
